import Mathlib

/-!
Verification development for the Ledis in-memory data store
(repository snowmerak/fiber-blazor, `ledis` package).

The Go sources are shallowly embedded: pointer-based containers become
Lean lists or an explicit node heap, Go `int64`/`uint64` arithmetic is
modelled on `Int`/`Nat` with explicit wrap-around where the source can
overflow, Go `float64` sorted-set scores are modelled by `GoFloat`
(exact rationals extended with `+inf`, `-inf` and `nan`, reproducing Go
comparison semantics including `nan == nan = false`; `GoFloat.add` is
exact where IEEE addition rounds, which no stated property depends on),
and fallible operations return `Except`.  Concurrent code is embedded as
its sequential core: a compare-and-swap retry loop is the single
successful iteration, a blocking waiter's one-shot buffered channel is
an `Option String` mailbox, and per-key command interleavings are
sequences of the embedded state transitions.  The Go `rand`-driven skip
list level is threaded as an explicit input (`t` = number of successful
random trials), mirroring `zslRandomLevel`.
-/

/-! ## Generic association-list maps (Go `map` / `sync.Map` view)

A `sync.Map` or Go `map` keyed by strings is embedded as an association
list with unique keys; `aset` replaces in place or appends, `adel`
removes, mirroring store/delete on the map. -/

def alookup {α : Type} : List (String × α) → String → Option α
  | [], _ => none
  | (k, v) :: rest, key => if k = key then some v else alookup rest key

def aset {α : Type} : List (String × α) → String → α → List (String × α)
  | [], key, v => [(key, v)]
  | (k, w) :: rest, key, v =>
      if k = key then (k, v) :: rest else (k, w) :: aset rest key v

def adel {α : Type} (m : List (String × α)) (key : String) : List (String × α) :=
  m.filter (fun kv => kv.1 ≠ key)

/-! ## Go numeric helpers -/

/-- Two's-complement wrap of Go `int64` addition results into
`[-2^63, 2^63)`. -/
def wrap64 (z : Int) : Int :=
  (z + 2 ^ 63) % 2 ^ 64 - 2 ^ 63

/-- Embedding of Go `strconv.ParseInt(s, 10, 64)`: optional sign, a
non-empty run of decimal digits, value within the signed 64-bit range;
any other input (including out-of-range values, which Go reports as
`ErrRange`) is a parse error. -/
def parseInt64Go (s : String) : Option Int :=
  let (neg, digits) :=
    match s.data with
    | '+' :: cs => (false, cs)
    | '-' :: cs => (true, cs)
    | cs => (false, cs)
  if digits = [] then none
  else if digits.all (fun c => c.isDigit) then
    let v : Nat := digits.foldl (fun a c => a * 10 + (c.toNat - '0'.toNat)) 0
    let n : Int := if neg then -(v : Int) else (v : Int)
    if -(2 ^ 63) ≤ n ∧ n ≤ 2 ^ 63 - 1 then some n else none
  else none

/-- Embedding of Go `strconv.ParseUint(s, 10, 64)`: no sign allowed, a
non-empty run of decimal digits, value below `2^64`; Go's `ErrRange`
result is a parse error for the caller. -/
def parseUint64Go (s : String) : Option Nat :=
  if s.data = [] then none
  else if s.data.all (fun c => c.isDigit) then
    let v : Nat := s.data.foldl (fun a c => a * 10 + (c.toNat - '0'.toNat)) 0
    if v < 2 ^ 64 then some v else none
  else none

/-! ## Go `float64` scores

`GoFloat` carries exactly the comparison behaviour the sorted-set code
relies on: `lt` and `feq` are Go `<` and `==` on `float64` (every
comparison involving `nan` is false), `add` is Go `+` up to rounding. -/

inductive GoFloat where
  | nan : GoFloat
  | ninf : GoFloat
  | fin : ℚ → GoFloat
  | pinf : GoFloat
deriving DecidableEq, Inhabited, Repr

def GoFloat.lt : GoFloat → GoFloat → Bool
  | .nan, _ => false
  | _, .nan => false
  | .ninf, .ninf => false
  | .ninf, _ => true
  | _, .ninf => false
  | .fin a, .fin b => decide (a < b)
  | .fin _, .pinf => true
  | .pinf, _ => false

def GoFloat.feq : GoFloat → GoFloat → Bool
  | .nan, _ => false
  | _, .nan => false
  | .ninf, .ninf => true
  | .ninf, _ => false
  | _, .ninf => false
  | .fin a, .fin b => decide (a = b)
  | .fin _, _ => false
  | .pinf, .pinf => true
  | .pinf, _ => false

def GoFloat.add : GoFloat → GoFloat → GoFloat
  | .nan, _ => .nan
  | _, .nan => .nan
  | .pinf, .ninf => .nan
  | .ninf, .pinf => .nan
  | .pinf, _ => .pinf
  | _, .pinf => .pinf
  | .ninf, _ => .ninf
  | _, .ninf => .ninf
  | .fin a, .fin b => .fin (a + b)

/-! ## Go string comparison

Go compares strings bytewise; on UTF-8 that order equals code-point
order, embedded here as an executable lexicographic comparison. -/

def goChLt (cs ds : List Char) : Bool :=
  match cs, ds with
  | [], [] => false
  | [], _ :: _ => true
  | _ :: _, [] => false
  | c :: cs, d :: ds =>
      if c.toNat < d.toNat then true
      else if d.toNat < c.toNat then false
      else goChLt cs ds

def goStrLt (a b : String) : Bool := goChLt a.data b.data

def goStrLe (a b : String) : Bool := goStrLt a b || a = b

/-! ## Skip list (`zskiplist`, src/ledis/ledis_zset.go)

The Go skip list is a pointer structure; it is embedded as a node heap:
`nodes` is an append-only array, node ids are array indices, id `0` is
the header allocated by `zslCreate`, and Go `nil` pointers are `none`.
Deleted nodes stay in the heap unreferenced, as Go leaves them to the
garbage collector.  Pointer walks carry fuel (`z.nodes.size + 1` bounds
any acyclic walk); `zslRandomLevel`'s random trial count is an explicit
argument `t`. -/

def ZSKIPLIST_MAXLEVEL : Nat := 32

structure ZLevelEntry where
  forward : Option Nat
  span : Int
deriving DecidableEq, Inhabited, Repr

structure ZNode where
  member : String
  score : GoFloat
  backward : Option Nat
  level : Array ZLevelEntry
deriving DecidableEq, Inhabited, Repr

structure Zskiplist where
  nodes : Array ZNode
  tail : Option Nat
  length : Int
  level : Nat
deriving DecidableEq, Inhabited, Repr

def zslCreateNode (lvl : Nat) (score : GoFloat) (member : String) : ZNode :=
  { member := member, score := score, backward := none,
    level := Array.mkArray lvl { forward := none, span := 0 } }

def zslCreate : Zskiplist :=
  { nodes := #[zslCreateNode ZSKIPLIST_MAXLEVEL (GoFloat.fin 0) ""],
    tail := none, length := 0, level := 1 }

/-- `zslRandomLevel`: `1 +` the number of successful random draws `t`,
capped at `ZSKIPLIST_MAXLEVEL`. -/
def zslRandomLevel (t : Nat) : Nat :=
  if 1 + t < ZSKIPLIST_MAXLEVEL then 1 + t else ZSKIPLIST_MAXLEVEL

def Zskiplist.node (z : Zskiplist) (i : Nat) : ZNode :=
  z.nodes.getD i default

def Zskiplist.fwd (z : Zskiplist) (i : Nat) (lvl : Nat) : Option Nat :=
  ((z.node i).level.getD lvl default).forward

def Zskiplist.spanAt (z : Zskiplist) (i : Nat) (lvl : Nat) : Int :=
  ((z.node i).level.getD lvl default).span

def Zskiplist.setFwd (z : Zskiplist) (i : Nat) (lvl : Nat) (v : Option Nat) : Zskiplist :=
  let n := z.node i
  let n' := { n with level := n.level.setD lvl { n.level.getD lvl default with forward := v } }
  { z with nodes := z.nodes.setD i n' }

def Zskiplist.setSpan (z : Zskiplist) (i : Nat) (lvl : Nat) (v : Int) : Zskiplist :=
  let n := z.node i
  let n' := { n with level := n.level.setD lvl { n.level.getD lvl default with span := v } }
  { z with nodes := z.nodes.setD i n' }

def Zskiplist.setBackward (z : Zskiplist) (i : Nat) (v : Option Nat) : Zskiplist :=
  let n := z.node i
  { z with nodes := z.nodes.setD i { n with backward := v } }

def Zskiplist.setScore (z : Zskiplist) (i : Nat) (v : GoFloat) : Zskiplist :=
  let n := z.node i
  { z with nodes := z.nodes.setD i { n with score := v } }

/-- The inner `for x.level[i].forward != nil && (forward.score < score ||
(forward.score == score && forward.member < member))` walk shared by
`insert`, `delete` and `updateScore`; returns the stop node and the rank
accumulated over traversed spans. -/
def zslWalk (z : Zskiplist) (score : GoFloat) (member : String) (lvl : Nat) :
    Nat → Nat → Int → Nat × Int
  | 0, x, acc => (x, acc)
  | fuel + 1, x, acc =>
      match z.fwd x lvl with
      | none => (x, acc)
      | some y =>
          if GoFloat.lt (z.node y).score score
              || (GoFloat.feq (z.node y).score score && goStrLt (z.node y).member member) then
            zslWalk z score member lvl fuel y (acc + z.spanAt x lvl)
          else
            (x, acc)

/-- The descend loop of `insert`/`delete`/`updateScore`: processes levels
`i, i-1, …, 0`, recording `update[i]` (last node before the insertion
point) and the cumulative `rank[i]`. -/
def zslDescend (z : Zskiplist) (score : GoFloat) (member : String) :
    Nat → Nat → Int → Array Nat → Array Int → Array Nat × Array Int
  | i, x, racc, update, rank =>
      let (x', r') := zslWalk z score member i (z.nodes.size + 1) x racc
      let update' := update.setD i x'
      let rank' := rank.setD i r'
      match i with
      | 0 => (update', rank')
      | j + 1 => zslDescend z score member j x' r' update' rank'

def zslSearch (z : Zskiplist) (score : GoFloat) (member : String) : Array Nat × Array Int :=
  zslDescend z score member (z.level - 1) 0 0
    (Array.mkArray ZSKIPLIST_MAXLEVEL 0) (Array.mkArray ZSKIPLIST_MAXLEVEL 0)

/-- `zskiplist.insert` (ledis_zset.go:67).  `t` is the random trial count
fed to `zslRandomLevel`. -/
def Zskiplist.insert (z : Zskiplist) (t : Nat) (score : GoFloat) (member : String) : Zskiplist :=
  let (update, rank) := zslSearch z score member
  let lvl := zslRandomLevel t
  -- if level > zsl.level: initialise the new levels' update/rank and
  -- set the header spans to zsl.length
  let (z, update, rank) :=
    if z.level < lvl then
      let idxs := List.range (lvl - z.level) |>.map (fun j => z.level + j)
      let update := idxs.foldl (fun u i => u.setD i 0) update
      let rank := idxs.foldl (fun r i => r.setD i 0) rank
      let z' := idxs.foldl (fun zz i => zz.setSpan 0 i zz.length) z
      ({ z' with level := lvl }, update, rank)
    else
      (z, update, rank)
  let xid := z.nodes.size
  let z := { z with nodes := z.nodes.push (zslCreateNode lvl score member) }
  let rank0 := rank.getD 0 0
  -- splice loop: for i in [0, lvl)
  let z := (List.range lvl).foldl
    (fun zz i =>
      let u := update.getD i 0
      let fw := zz.fwd u i
      let sp := zz.spanAt u i
      let ri := rank.getD i 0
      ((zz.setFwd xid i fw).setFwd u i (some xid)
        |>.setSpan xid i (sp - (rank0 - ri))).setSpan u i ((rank0 - ri) + 1))
    z
  -- for i in [lvl, z.level): update[i].level[i].span++
  let z := (List.range z.level).foldl
    (fun zz i =>
      if i < lvl then zz
      else
        let u := update.getD i 0
        zz.setSpan u i (zz.spanAt u i + 1))
    z
  let z := if update.getD 0 0 ≠ 0 then z.setBackward xid (some (update.getD 0 0)) else z
  let z :=
    match z.fwd xid 0 with
    | some y => z.setBackward y (some xid)
    | none => { z with tail := some xid }
  { z with length := z.length + 1 }

/-- The trailing `for zsl.level > 1 && zsl.header.level[zsl.level-1].forward == nil`
loop of `deleteNode`. -/
def zslShrink (z : Zskiplist) : Nat → Zskiplist
  | 0 => z
  | fuel + 1 =>
      if 1 < z.level ∧ z.fwd 0 (z.level - 1) = none then
        zslShrink { z with level := z.level - 1 } fuel
      else z

/-- `zskiplist.deleteNode` (ledis_zset.go:122). -/
def Zskiplist.deleteNode (z : Zskiplist) (xid : Nat) (update : Array Nat) : Zskiplist :=
  let z := (List.range z.level).foldl
    (fun zz i =>
      let u := update.getD i 0
      if zz.fwd u i = some xid then
        (zz.setSpan u i (zz.spanAt u i + zz.spanAt xid i - 1)).setFwd u i (zz.fwd xid i)
      else
        zz.setSpan u i (zz.spanAt u i - 1))
    z
  let z :=
    match z.fwd xid 0 with
    | some y => z.setBackward y (z.node xid).backward
    | none => { z with tail := (z.node xid).backward }
  let z := zslShrink z ZSKIPLIST_MAXLEVEL
  { z with length := z.length - 1 }

/-- `zskiplist.delete` (ledis_zset.go:142); returns `1` iff a node with
exactly this `(score, member)` (Go `==` on the score) was unlinked. -/
def Zskiplist.delete (z : Zskiplist) (score : GoFloat) (member : String) : Zskiplist × Nat :=
  let (update, _) := zslSearch z score member
  match z.fwd (update.getD 0 0) 0 with
  | some x =>
      if GoFloat.feq score (z.node x).score ∧ (z.node x).member = member then
        (z.deleteNode x update, 1)
      else (z, 0)
  | none => (z, 0)

/-- The walk of `getRank` (forward while `score <` or `score ==` and
`member <=`). -/
def zslRankWalk (z : Zskiplist) (score : GoFloat) (member : String) (lvl : Nat) :
    Nat → Nat → Int → Nat × Int
  | 0, x, acc => (x, acc)
  | fuel + 1, x, acc =>
      match z.fwd x lvl with
      | none => (x, acc)
      | some y =>
          if GoFloat.lt (z.node y).score score
              || (GoFloat.feq (z.node y).score score && goStrLe (z.node y).member member) then
            zslRankWalk z score member lvl fuel y (acc + z.spanAt x lvl)
          else
            (x, acc)

/-- The level loop of `getRank`: after walking level `i`, return the
accumulated rank as soon as the stop node carries the member. -/
def zslRankLoop (z : Zskiplist) (score : GoFloat) (member : String) :
    Nat → Nat → Int → Int
  | i, x, racc =>
      let (x', r') := zslRankWalk z score member i (z.nodes.size + 1) x racc
      if (z.node x').member = member then r'
      else
        match i with
        | 0 => 0
        | j + 1 => zslRankLoop z score member j x' r'

/-- `zskiplist.getRank` (ledis_zset.go:161). -/
def Zskiplist.getRank (z : Zskiplist) (score : GoFloat) (member : String) : Int :=
  zslRankLoop z score member (z.level - 1) 0 0

/-- `zskiplist.updateScore` (ledis_zset.go:178).  `t` feeds the reinsert
path's `zslRandomLevel`. -/
def Zskiplist.updateScore (z : Zskiplist) (t : Nat) (curScore : GoFloat) (member : String)
    (newScore : GoFloat) : Zskiplist :=
  let (update, _) := zslSearch z curScore member
  match z.fwd (update.getD 0 0) 0 with
  | some x =>
      if GoFloat.feq curScore (z.node x).score ∧ (z.node x).member = member then
        let bwOk :=
          match (z.node x).backward with
          | none => true
          | some b =>
              GoFloat.lt (z.node b).score newScore
                || (GoFloat.feq (z.node b).score newScore && goStrLt (z.node b).member member)
        let fwOk :=
          match z.fwd x 0 with
          | none => true
          | some f =>
              GoFloat.lt newScore (z.node f).score
                || (GoFloat.feq (z.node f).score newScore && goStrLt member (z.node f).member)
        if bwOk && fwOk then
          z.setScore x newScore
        else
          (z.deleteNode x update).insert t newScore member
      else z
  | none => z

/-- Level-0 scan of the skip list: the `(score, member)` sequence
reachable from the header along `forward[0]`. -/
def zslToListAux (z : Zskiplist) : Nat → Option Nat → List (GoFloat × String)
  | 0, _ => []
  | _, none => []
  | fuel + 1, some x => ((z.node x).score, (z.node x).member) :: zslToListAux z fuel (z.fwd x 0)

def zslToList (z : Zskiplist) : List (GoFloat × String) :=
  zslToListAux z (z.nodes.size + 1) (z.fwd 0 0)

/-! ## Sorted set (`ZSet`: member→score dictionary + skip list)

`ZAdd` / `ZRem` / `ZIncrBy` command cores, i.e. the bodies executed under
`z.mu.Lock()` in src/ledis/ledis_zset.go; the Go `map[string]float64` is
the association list `dict`. -/

structure ZSetM where
  dict : List (String × GoFloat)
  zsl : Zskiplist
deriving DecidableEq, Inhabited, Repr

def NewZSetM : ZSetM := { dict := [], zsl := zslCreate }

/-- Body of `DistributedMap.ZAdd` under the lock (ledis_zset.go:241):
returns the updated set and `added` (1 on fresh insert, 0 on update).
Go `oldScore != score` is `¬ feq` (true whenever a `nan` is involved). -/
def zaddCore (t : Nat) (score : GoFloat) (member : String) (z : ZSetM) : ZSetM × Nat :=
  match alookup z.dict member with
  | some oldScore =>
      if ¬ (GoFloat.feq oldScore score = true) then
        ({ dict := aset z.dict member score,
           zsl := z.zsl.updateScore t oldScore member score }, 0)
      else (z, 0)
  | none =>
      ({ dict := aset z.dict member score, zsl := z.zsl.insert t score member }, 1)

/-- Body of `DistributedMap.ZRem` under the lock for a single member
(ledis_zset.go:264): looks the member up in the dictionary, deletes the
`(score, member)` node from the skip list, removes the dictionary entry. -/
def zremCoreOne (member : String) (z : ZSetM) : ZSetM × Nat :=
  match alookup z.dict member with
  | some score =>
      ({ dict := adel z.dict member, zsl := (z.zsl.delete score member).1 }, 1)
  | none => (z, 0)

/-- Body of `DistributedMap.ZIncrBy` under the lock (ledis_zset.go:344). -/
def zincrCore (t : Nat) (increment : GoFloat) (member : String) (z : ZSetM) :
    ZSetM × GoFloat :=
  match alookup z.dict member with
  | some oldScore =>
      let score := GoFloat.add oldScore increment
      ({ dict := aset z.dict member score,
         zsl := z.zsl.updateScore t oldScore member score }, score)
  | none =>
      ({ dict := aset z.dict member increment, zsl := z.zsl.insert t increment member },
        increment)



/-! ## Store-level sorted-set commands (src/unnamed/part_001)

That file's `DistributedMap` stores `Item{Value interface, ExpiresAt
int64}` values; for the sorted-set commands the payload is either a
`*ZSet` or some other Go value (`other`).  An item with `ExpiresAt > 0 &&
ExpiresAt < now` is expired.  The Go `*ZSet` pointer shared between the
map and the command is embedded by writing the updated set back to the
same key with an unchanged `ExpiresAt`.  `d.Del`'s observer notification
is outside this model (the observer registry is embedded separately with
the list commands below). -/

inductive ZValue where
  | zset : ZSetM → ZValue
  | other : ZValue
deriving DecidableEq, Inhabited, Repr

structure ItemV where
  value : ZValue
  expiresAt : Int
deriving DecidableEq, Inhabited, Repr

def StoreV : Type := List (String × ItemV)

def ItemV.expired (it : ItemV) (now : Int) : Bool :=
  decide (0 < it.expiresAt) && decide (it.expiresAt < now)

inductive LErr where
  | wrongType
  | noSuchKey
  | timeout
  | notInteger
  | notString
  | indexOutOfRange
deriving DecidableEq, Repr

/-- `DistributedMap.ZAdd` (part_001:269), with `getOrCreateZSet` inlined:
a fresh set replaces a missing or expired entry (stored with
`ExpiresAt: 0`); a live entry of another type is `ErrWrongType`. -/
def ZAddS (st : StoreV) (k : String) (score : GoFloat) (member : String) (t : Nat)
    (now : Int) : Except LErr (StoreV × Nat) :=
  match alookup st k with
  | none =>
      let (z', added) := zaddCore t score member NewZSetM
      .ok (aset st k { value := .zset z', expiresAt := 0 }, added)
  | some it =>
      if it.expired now then
        let (z', added) := zaddCore t score member NewZSetM
        .ok (aset st k { value := .zset z', expiresAt := 0 }, added)
      else
        match it.value with
        | .zset z =>
            let (z', added) := zaddCore t score member z
            .ok (aset st k { value := .zset z', expiresAt := it.expiresAt }, added)
        | .other => .error .wrongType

/-- `DistributedMap.ZScore` (part_001:326): `(score, exists)`; an expired
entry is deleted and reads as absent. -/
def ZScoreS (st : StoreV) (k : String) (member : String) (now : Int) :
    Except LErr (StoreV × (GoFloat × Bool)) :=
  match alookup st k with
  | none => .ok (st, (GoFloat.fin 0, false))
  | some it =>
      if it.expired now then .ok (adel st k, (GoFloat.fin 0, false))
      else
        match it.value with
        | .zset z =>
            match alookup z.dict member with
            | some s => .ok (st, (s, true))
            | none => .ok (st, (GoFloat.fin 0, false))
        | .other => .error .wrongType

/-- `DistributedMap.ZCard` (part_001:349): the stored skip-list `length`. -/
def ZCardS (st : StoreV) (k : String) (now : Int) : Except LErr (StoreV × Int) :=
  match alookup st k with
  | none => .ok (st, 0)
  | some it =>
      if it.expired now then .ok (adel st k, 0)
      else
        match it.value with
        | .zset z => .ok (st, z.zsl.length)
        | .other => .error .wrongType

/-- `DistributedMap.ZRank` (part_001:550): 0-based rank
`zsl.getRank(score, member) - 1`, or `-1` for a missing member/key. -/
def ZRankS (st : StoreV) (k : String) (member : String) (now : Int) :
    Except LErr (StoreV × Int) :=
  match alookup st k with
  | none => .ok (st, -1)
  | some it =>
      if it.expired now then .ok (adel st k, -1)
      else
        match it.value with
        | .zset z =>
            match alookup z.dict member with
            | some score => .ok (st, z.zsl.getRank score member - 1)
            | none => .ok (st, -1)
        | .other => .error .wrongType

/-- `DistributedMap.ZRevRank` (part_001:578): `zsl.length - getRank`. -/
def ZRevRankS (st : StoreV) (k : String) (member : String) (now : Int) :
    Except LErr (StoreV × Int) :=
  match alookup st k with
  | none => .ok (st, -1)
  | some it =>
      if it.expired now then .ok (adel st k, -1)
      else
        match it.value with
        | .zset z =>
            match alookup z.dict member with
            | some score => .ok (st, z.zsl.length - z.zsl.getRank score member)
            | none => .ok (st, -1)
        | .other => .error .wrongType

/-! ## Concrete-field `Item` store (src/ledis/ledis.go, first variant)

The canonical `Item` holds the type tag, expiry, and one concrete
payload per type; only the fields the verified commands touch are
embedded (`Str` for strings, the doubly-linked list as the level-0
sequence `lst` plus the separate `ListSize` counter, and the blocking
`Waiters`, each a one-shot buffered channel embedded as an
`Option String` mailbox).  `DState` bundles the shard maps (merged into
one association list, since the key→shard mapping is fixed and per-key
operations touch a single shard), the invalidation registry
(`invalidationTable` and `clientKeys`, observers named by `Nat` ids) and
`sent`, the log of `o.Invalidate(key)` calls in invocation order. -/

def TypeString : Nat := 0
def TypeList : Nat := 1
def TypeHash : Nat := 2
def TypeSet : Nat := 3
def TypeZSet : Nat := 4
def TypeStream : Nat := 5
def TypeBitmap : Nat := 6

structure ItemC where
  typ : Nat
  expiresAt : Int
  str : String
  lst : List String
  listSize : Int
  waiters : List (Option String)
deriving DecidableEq, Inhabited, Repr

def ItemC.expired (it : ItemC) (now : Int) : Bool :=
  decide (0 < it.expiresAt) && decide (it.expiresAt < now)

structure DState where
  store : List (String × ItemC)
  invTable : List (String × List Nat)
  clientKeys : List (Nat × List String)
  sent : List (Nat × String)
deriving DecidableEq, Inhabited, Repr

def lookupCK : List (Nat × List String) → Nat → Option (List String)
  | [], _ => none
  | (o, ks) :: rest, obs => if o = obs then some ks else lookupCK rest obs

/-- `DistributedMap.Track` (ledis.go:165): adds the key→observer and
observer→key edges. -/
def trackD (k : String) (o : Nat) (ds : DState) : DState :=
  let obs := (alookup ds.invTable k).getD []
  let obs' := if o ∈ obs then obs else obs ++ [o]
  let ks := (lookupCK ds.clientKeys o).getD []
  let ks' := if k ∈ ks then ks else ks ++ [k]
  { ds with
    invTable := aset ds.invTable k obs',
    clientKeys :=
      if (lookupCK ds.clientKeys o).isSome then
        ds.clientKeys.map (fun e => if e.1 = o then (e.1, ks') else e)
      else ds.clientKeys ++ [(o, ks')] }

/-- `DistributedMap.NotifyObservers` (ledis.go:182): one-shot — invoke
`o.Invalidate(key)` for every observer tracked on `key` (appended to
`sent`), drop `key` from each observer's `clientKeys` set, then drop the
`invalidationTable` entry for `key`. -/
def notifyObserversD (k : String) (ds : DState) : DState :=
  match alookup ds.invTable k with
  | none => ds
  | some obs =>
      { ds with
        sent := ds.sent ++ obs.map (fun o => (o, k)),
        clientKeys := ds.clientKeys.map
          (fun e => if e.1 ∈ obs then (e.1, e.2.filter (fun key => key ≠ k)) else e),
        invTable := adel ds.invTable k }

/-- `DistributedMap.Del` (ledis.go:490): `LoadAndDelete` plus
notification when the key was present. -/
def delD (ds : DState) (k : String) : DState :=
  match alookup ds.store k with
  | none => ds
  | some _ => notifyObserversD k { ds with store := adel ds.store k }

/-- `DistributedMap.Exists` (ledis.go:501); an expired entry is removed
(with notification) and reads as absent. -/
def existsD (ds : DState) (k : String) (now : Int) : DState × Bool :=
  match alookup ds.store k with
  | none => (ds, false)
  | some it =>
      if it.expired now then
        (notifyObserversD k { ds with store := adel ds.store k }, false)
      else (ds, true)

/-- `DistributedMap.TTL` (ledis.go:520): `-2` for a missing key, `-1`
for `ExpiresAt == 0`, otherwise `ExpiresAt - now`, deleting (and
notifying) when that remainder is negative. -/
def ttlD (ds : DState) (k : String) (now : Int) : Int × DState :=
  match alookup ds.store k with
  | none => (-2, ds)
  | some it =>
      if it.expiresAt = 0 then (-1, ds)
      else
        let ttl := it.expiresAt - now
        if ttl < 0 then (-2, notifyObserversD k { ds with store := adel ds.store k })
        else (ttl, ds)

/-! ## List commands (src/unnamed/part_009, first variant)

The doubly-linked list is embedded as its head→tail sequence `lst`
together with the separately maintained `ListSize` counter.  A waiter's
`chan string` of capacity 1 is an `Option String` mailbox; the
push-side `select { case ch <- val: default: }` fills an empty mailbox
and silently drops the value into a full one.  `serveWaiters` is the
`for len(i.Waiters) > 0 && len(values) > 0` loop shared by `rpush` and
`lpush`; it returns the remaining waiters, the remaining values and the
mailbox states of the served (and dequeued) waiters in service order. -/

def serveWaiters :
    List (Option String) → List String →
      List (Option String) × List String × List (Option String)
  | [], vs => ([], vs, [])
  | w :: ws, [] => (w :: ws, [], [])
  | w :: ws, v :: vs =>
      let w' := match w with | none => some v | some u => some u
      let (ws', vs', ds') := serveWaiters ws vs
      (ws', vs', w' :: ds')

def newListItem : ItemC :=
  { typ := TypeList, expiresAt := 0, str := "", lst := [], listSize := 0, waiters := [] }

/-- `Item.rpush` (part_009:90): serve waiters first, append the rest at
the tail, return the resulting `ListSize`.  The second component is the
served waiters' mailboxes. -/
def ItemC.rpush (i : ItemC) (values : List String) : ItemC × List (Option String) :=
  let (ws', vs', delivered) := serveWaiters i.waiters values
  let i' := { i with waiters := ws', lst := i.lst ++ vs', listSize := i.listSize + vs'.length }
  (i', delivered)

/-- `Item.lpush` (part_009:125): serve waiters first, then push each
remaining value at the head in the order given. -/
def ItemC.lpush (i : ItemC) (values : List String) : ItemC × List (Option String) :=
  let (ws', vs', delivered) := serveWaiters i.waiters values
  let lst' := vs'.foldl (fun acc v => v :: acc) i.lst
  let i' := { i with waiters := ws', lst := lst', listSize := i.listSize + vs'.length }
  (i', delivered)

/-- `Item.pop` (part_009:160): head (`left = true`) or tail pop guarded
by `ListSize == 0`.  (On a corrupt item whose counter disagrees with the
links Go would fault; the model returns no value there.) -/
def ItemC.pop (i : ItemC) (left : Bool) : Option String × ItemC :=
  if i.listSize = 0 then (none, i)
  else if left then
    match i.lst with
    | v :: rest => (some v, { i with lst := rest, listSize := i.listSize - 1 })
    | [] => (none, i)
  else
    match i.lst.getLast? with
    | some v => (some v, { i with lst := i.lst.dropLast, listSize := i.listSize - 1 })
    | none => (none, i)

/-- `DistributedMap.getListItem` (part_009:16): missing → `none`,
expired → delete + notify + `none`, wrong type → `ErrWrongType`. -/
def getListItemD (ds : DState) (k : String) (now : Int) :
    Except LErr (DState × Option ItemC) :=
  match alookup ds.store k with
  | none => .ok (ds, none)
  | some it =>
      if it.expired now then
        .ok (notifyObserversD k { ds with store := adel ds.store k }, none)
      else if it.typ ≠ TypeList then .error .wrongType
      else .ok (ds, some it)

/-- `DistributedMap.getOrCreateListItem` (part_009:39): an expired entry
is deleted (with notification) and replaced by a fresh empty list item,
whose creation is notified as well; a live entry of another type is
`ErrWrongType`. -/
def getOrCreateListItemD (ds : DState) (k : String) (now : Int) :
    Except LErr (DState × ItemC) :=
  match alookup ds.store k with
  | none =>
      .ok (notifyObserversD k { ds with store := aset ds.store k newListItem },
        newListItem)
  | some it =>
      if it.expired now then
        let ds := notifyObserversD k { ds with store := adel ds.store k }
        .ok (notifyObserversD k { ds with store := aset ds.store k newListItem },
          newListItem)
      else if it.typ ≠ TypeList then .error .wrongType
      else .ok (ds, it)

/-- `DistributedMap.LPush` (part_009:197); the Go pointer write-back is
a store at the same key. -/
def LPushD (ds : DState) (k : String) (values : List String) (now : Int) :
    Except LErr (DState × Int) :=
  match getOrCreateListItemD ds k now with
  | .error e => .error e
  | .ok (ds, it) =>
      let (it', _) := it.lpush values
      .ok ({ ds with store := aset ds.store k it' }, it'.listSize)

/-- `DistributedMap.RPush` (part_009:217). -/
def RPushD (ds : DState) (k : String) (values : List String) (now : Int) :
    Except LErr (DState × Int) :=
  match getOrCreateListItemD ds k now with
  | .error e => .error e
  | .ok (ds, it) =>
      let (it', _) := it.rpush values
      .ok ({ ds with store := aset ds.store k it' }, it'.listSize)

/-- `DistributedMap.LPop` (part_009:235): pop the head, then delete the
key when the list became empty. -/
def LPopD (ds : DState) (k : String) (now : Int) :
    Except LErr (DState × Option String) :=
  match getListItemD ds k now with
  | .error e => .error e
  | .ok (ds, none) => .ok (ds, none)
  | .ok (ds, some it) =>
      match it.pop true with
      | (none, _) => .ok (ds, none)
      | (some v, it') =>
          let ds := { ds with store := aset ds.store k it' }
          if it'.listSize = 0 then .ok (delD ds k, some v)
          else .ok (ds, some v)

/-- `DistributedMap.RPop` (part_009:260). -/
def RPopD (ds : DState) (k : String) (now : Int) :
    Except LErr (DState × Option String) :=
  match getListItemD ds k now with
  | .error e => .error e
  | .ok (ds, none) => .ok (ds, none)
  | .ok (ds, some it) =>
      match it.pop false with
      | (none, _) => .ok (ds, none)
      | (some v, it') =>
          let ds := { ds with store := aset ds.store k it' }
          if it'.listSize = 0 then .ok (delD ds k, some v)
          else .ok (ds, some v)

/-- `DistributedMap.LRange` (part_009:376): effective indices are folded
against `item.ListSize`, then the nodes from `start` to `stop` are
collected walking from the head. -/
def LRangeD (ds : DState) (k : String) (start stop : Int) (now : Int) :
    Except LErr (DState × List String) :=
  match getListItemD ds k now with
  | .error e => .error e
  | .ok (ds, none) => .ok (ds, [])
  | .ok (ds, some it) =>
      let size := it.listSize
      if size = 0 then .ok (ds, [])
      else
        let start := if start < 0 then max (size + start) 0 else start
        let stop := if stop < 0 then size + stop else stop
        let stop := if size ≤ stop then size - 1 else stop
        if stop < start then .ok (ds, [])
        else .ok (ds, ((it.lst.drop start.toNat).take (stop - start + 1).toNat))

/-- The `count > 0` arm of `LRem`: drop the first `count` occurrences
scanning head→tail. -/
def lremHead : List String → String → Nat → List String × Nat
  | [], _, _ => ([], 0)
  | v :: rest, target, count =>
      if v = target ∧ 0 < count then
        let (l, r) := lremHead rest target (count - 1)
        (l, r + 1)
      else
        let (l, r) := lremHead rest target count
        (v :: l, r)

/-- `DistributedMap.LRem` (part_009:565): removes matching nodes per the
`count` convention and decrements `ListSize`, but — unlike `LPop` —
never deletes the key when the list becomes empty (the deletion block in
the source is commented out). -/
def LRemD (ds : DState) (k : String) (count : Int) (value : String) (now : Int) :
    Except LErr (DState × Nat) :=
  match getListItemD ds k now with
  | .error e => .error e
  | .ok (ds, none) => .ok (ds, 0)
  | .ok (ds, some it) =>
      let (lst', removed) :=
        if 0 < count then lremHead it.lst value count.toNat
        else if count < 0 then
          let (rl, r) := lremHead it.lst.reverse value (-count).toNat
          (rl.reverse, r)
        else
          (it.lst.filter (fun v => v ≠ value), (it.lst.filter (fun v => v = value)).length)
      let it' := { it with lst := lst', listSize := it.listSize - removed }
      .ok ({ ds with store := aset ds.store k it' }, removed)

/-! ## String commands (src/ledis/ledis_string.go)

`IncrBy` is a load → parse → add → compare-and-swap-or-retry loop; its
sequential core is the single iteration whose CAS succeeds.  Go `int64`
addition wraps, embedded as `wrap64`; `strconv.FormatInt(v, 10)` is
`toString` on `Int`. -/

/-- `DistributedMap.IncrBy` (ledis_string.go:93): absent or expired key
counts as 0 (expiry reset to 0), a live non-string or unparsable value
is `ErrNotInteger`; the new value is formatted, stored with the old
expiry, and returned.  The store is unchanged on error. -/
def IncrByD (ds : DState) (k : String) (amount : Int) (now : Int) :
    Except LErr (DState × Int) :=
  match alookup ds.store k with
  | none =>
      let newValue := wrap64 (0 + amount)
      let it := { typ := TypeString, expiresAt := 0, str := toString newValue,
                  lst := [], listSize := 0, waiters := [] : ItemC }
      .ok (notifyObserversD k { ds with store := aset ds.store k it }, newValue)
  | some old =>
      if old.expired now then
        let newValue := wrap64 (0 + amount)
        let it := { typ := TypeString, expiresAt := 0, str := toString newValue,
                    lst := [], listSize := 0, waiters := [] : ItemC }
        .ok (notifyObserversD k { ds with store := aset ds.store k it }, newValue)
      else if old.typ ≠ TypeString then .error .notInteger
      else
        match parseInt64Go old.str with
        | none => .error .notInteger
        | some current =>
            let newValue := wrap64 (current + amount)
            let it := { typ := TypeString, expiresAt := old.expiresAt,
                        str := toString newValue, lst := [], listSize := 0,
                        waiters := [] : ItemC }
            .ok (notifyObserversD k { ds with store := aset ds.store k it }, newValue)

/-! ## Streams (src/ledis/ledis_stream.go)

Entry IDs stay strings as in the source; `parseID` splits on `-` and
`ParseUint`s both halves, and `compareIDs` compares the parsed pairs,
silently treating an unparsable ID as `(0, 0)` exactly as the Go code's
discarded error does. -/

structure StreamEntryM where
  id : String
  fields : List String
deriving DecidableEq, Inhabited, Repr

structure StreamM where
  entries : List StreamEntryM
  lastID : String
deriving DecidableEq, Inhabited, Repr

def newStreamM : StreamM := { entries := [], lastID := "0-0" }

/-- Go `strings.Split(id, "-")` for the one-character separator,
executable by the kernel. -/
def splitDashAux : List Char → List Char → List (List Char)
  | [], acc => [acc.reverse]
  | c :: cs, acc =>
      if c = '-' then acc.reverse :: splitDashAux cs []
      else splitDashAux cs (c :: acc)

/-- `parseID` (ledis_stream.go:99). -/
def parseIDGo (s : String) : Option (Nat × Nat) :=
  match splitDashAux s.data [] with
  | [a, b] =>
      match parseUint64Go ⟨a⟩, parseUint64Go ⟨b⟩ with
      | some x, some y => some (x, y)
      | _, _ => none
  | _ => none

/-- The `(ms, seq)` a stream ID denotes to `compareIDs`: parse errors are
discarded and the zero values `(0, 0)` are used. -/
def pairOfID (s : String) : Nat × Nat := (parseIDGo s).getD (0, 0)

def pcmp (x y : Nat × Nat) : Int :=
  if x.1 < y.1 then -1
  else if y.1 < x.1 then 1
  else if x.2 < y.2 then -1
  else if y.2 < x.2 then 1
  else 0

/-- `compareIDs` (ledis_stream.go:116). -/
def compareIDs (a b : String) : Int := pcmp (pairOfID a) (pairOfID b)

def formatID (ts seq : Nat) : String := toString ts ++ "-" ++ toString seq

/-- `Stream.generateID` (ledis_stream.go:137): for `"*"`,
`ms = max(now_ms, last_ms)` with `seq = last_seq + 1` (a `uint64`
increment) when `ms == last_ms` and `0` otherwise; an explicit ID passes
through unchanged. -/
def generateIDGo (lastID : String) (nowMs : Nat) (id : String) : String :=
  if id = "*" then
    let ts0 := nowMs % 2 ^ 64
    let p := pairOfID lastID
    let ts := if ts0 < p.1 then p.1 else ts0
    let seq := if ts = p.1 then (p.2 + 1) % 2 ^ 64 else 0
    formatID ts seq
  else id

/-- `DistributedMap.XAdd`'s stream core (ledis_stream.go:163), the body
executed under `item.Mu.Lock()`: generate or accept the ID, validate it
against `lastID` (strictly greater by `compareIDs` when `lastID` is not
the literal `"0-0"`, otherwise only the literal `"0-0"` is rejected),
append, update `lastID`, and trim the oldest entries beyond `maxLen`. -/
def xaddS (s : StreamM) (nowMs : Nat) (id : String) (maxLen : Int)
    (fields : List String) : Except String (StreamM × String) :=
  if fields.length % 2 ≠ 0 then .error "wrong number of arguments for XADD"
  else
    let newID := generateIDGo s.lastID nowMs id
    if s.lastID ≠ "0-0" ∧ compareIDs newID s.lastID ≤ 0 then
      .error "ERR The ID specified in XADD is equal or smaller than the target stream top item"
    else if s.lastID = "0-0" ∧ newID = "0-0" then
      .error "ERR The ID specified in XADD must be greater than 0-0"
    else
      let entries := s.entries ++ [{ id := newID, fields := fields }]
      let entries :=
        if 0 < maxLen ∧ maxLen < (entries.length : Int) then
          entries.drop ((entries.length : Int) - maxLen).toNat
        else entries
      .ok ({ entries := entries, lastID := newID }, newID)

/-- `DistributedMap.XTrim`'s stream core (ledis_stream.go:218). -/
def xtrimS (s : StreamM) (maxLen : Int) : StreamM × Int :=
  let currentLen : Int := s.entries.length
  if currentLen ≤ maxLen then (s, 0)
  else
    let removeCount := currentLen - maxLen
    ({ s with entries := s.entries.drop removeCount.toNat }, removeCount)

/-! ## RESP writer and the EXEC command (src/ledis/server)

Byte output of the `Writer` methods of src/ledis/server/resp.go (first
variant), and the `EXEC` arm of `Client.execute`
(src/unnamed/part_006:205).  Responses of queued commands are an oracle
`run : List String → String`, since EXEC only concatenates them; both
the sequential fallback and the parallel mode copy the per-command
buffers in original queue order, so they emit the same byte sequence. -/

def writeNull : String := "$-1\r\n"

def writeArrayHeader (n : Int) : String := "*" ++ toString n ++ "\r\n"

def writeErrorR (msg : String) : String := "-" ++ msg ++ "\r\n"

def writeSimpleStringR (s : String) : String := "+" ++ s ++ "\r\n"

structure TxSt where
  inTx : Bool
  dirty : Bool
  watching : List String
  txQueue : List (List String)
deriving DecidableEq, Inhabited, Repr

def clearedTx : TxSt := { inTx := false, dirty := false, watching := [], txQueue := [] }

/-- The per-command key analysis of EXEC's parallel path
(part_006:251): single-key commands may parallelise, everything else
forces the sequential fallback. -/
def parallelSafeCmd (cmd : String) : Bool :=
  cmd ∈ ["SET", "GET", "INCR", "DECR",
    "LPUSH", "RPUSH", "LPOP", "RPOP", "LLEN", "LRANGE",
    "HSET", "HGET", "HDEL", "HLEN", "HGETALL",
    "SADD", "SREM", "SMEMBERS", "SISMEMBER",
    "ZADD", "ZRANGE",
    "SETBIT", "GETBIT", "BITCOUNT",
    "XADD", "TTL", "EXISTS"]

def canParallelizeGo (queue : List (List String)) : Bool :=
  queue.all (fun q =>
    match q with
    | cmd :: arg0 :: _ => parallelSafeCmd cmd.toUpper && decide (arg0 ≠ "")
    | _ => false)

/-- The `EXEC` arm of `Client.execute` (part_006:205): without MULTI an
error; with the dirty flag set the transaction state is cleared and
`WriteNull` emits `$-1\r\n`; otherwise the state is cleared, the
`*len(queue)` array header is written and the queued commands'
responses follow in queue order (the parallel mode concatenates its
per-command buffers in the same order). -/
def execExecCmd (run : List String → String) (st : TxSt) : TxSt × String :=
  if st.inTx = false then (st, writeErrorR "ERR EXEC without MULTI")
  else if st.dirty then (clearedTx, writeNull)
  else
    let queue := st.txQueue
    let out :=
      if canParallelizeGo queue then
        writeArrayHeader queue.length ++ String.join (queue.map run)
      else
        writeArrayHeader queue.length ++ String.join (queue.map run)
    (clearedTx, out)

/-- The waiter-registration step of `DistributedMap.blockPop`
(part_009:283): when the non-blocking pop found nothing, a fresh one-shot
channel (`make(chan string, 1)`, an empty mailbox) is appended to the
item's waiter queue before the caller suspends on it. -/
def ItemC.blockPopRegister (i : ItemC) : ItemC :=
  { i with waiters := i.waiters ++ [none] }

/-- The store produced by `ZADD z 5 m` on an empty store (level trials
0, clock 0); used to exercise the rank identity on a concrete state. -/
def zaddWitnessStore : StoreV :=
  match ZAddS [] "z" (GoFloat.fin 5) "m" 0 0 with
  | .ok (st, _) => st
  | .error _ => []

/-- The three-step NaN scenario on one sorted set: `ZADD k nan m`,
`ZADD k 1 m2`, `ZREM k m` (random-level trials 0 throughout). -/
def zsetNanStep1 : ZSetM := (zaddCore 0 GoFloat.nan "m" NewZSetM).1

def zsetNanStep2 : ZSetM := (zaddCore 0 (GoFloat.fin 1) "m2" zsetNanStep1).1

def zsetNanStep3 : ZSetM := (zremCoreOne "m" zsetNanStep2).1

/-- The strictly-increasing-IDs stream invariant: entries pairwise
strictly increasing under `compareIDs`, every entry at most `lastID`,
and a stream whose `lastID` is still the initial literal `"0-0"` has no
entries. -/
def streamInv (s : StreamM) : Prop :=
  s.entries.Pairwise (fun e1 e2 => compareIDs e1.id e2.id = -1) ∧
  (∀ e ∈ s.entries, compareIDs e.id s.lastID ≤ 0) ∧
  (s.lastID = "0-0" → s.entries = [])

/-! # Theorems

General helper lemmas first, then one theorem (plus counterexample and
witness where applicable) per specification claim. -/

theorem alookup_aset_self {α : Type} (m : List (String × α)) (k : String) (v : α) :
    alookup (aset m k v) k = some v := by
  induction m with
  | nil => simp [aset, alookup]
  | cons hd tl ih =>
      by_cases h : hd.1 = k
      · simp [aset, alookup, h]
      · simp [aset, alookup, h, ih]

theorem alookup_aset_ne {α : Type} (m : List (String × α)) (k k' : String) (v : α)
    (h : k ≠ k') : alookup (aset m k v) k' = alookup m k' := by
  induction m with
  | nil => simp [aset, alookup, h]
  | cons hd tl ih =>
      by_cases hh : hd.1 = k
      · simp [aset, alookup, hh, h]
      · by_cases hk : hd.1 = k'
        · simp [aset, alookup, hh, hk, Ne.symm h]
        · simp [aset, alookup, hh, hk, ih]

/-- Go `==` on `float64` succeeds only on identical model values (`-0.0`
and `0.0` are the same rational here). -/
theorem GoFloat.eq_of_feq : ∀ {a b : GoFloat}, GoFloat.feq a b = true → a = b := by
  intro a b h
  cases a <;> cases b <;> simp_all [GoFloat.feq]


/-! ## C10 — TTL -/

/-- C10 (amended): `TTL` returns `-2` for an absent key, `-1` for a key
with `expires_at = 0`, `-2` for a strictly elapsed expiry (removing the
entry and notifying as a side effect), and otherwise the NON-NEGATIVE
remaining duration — which is `0`, not positive, when `now` equals
`expires_at` exactly. -/
theorem ttl_trichotomy (ds : DState) (k : String) (now : Int) :
    (alookup ds.store k = none → ttlD ds k now = (-2, ds)) ∧
    (∀ it, alookup ds.store k = some it →
      (it.expiresAt = 0 → ttlD ds k now = (-1, ds)) ∧
      (it.expiresAt ≠ 0 → it.expiresAt - now < 0 →
        ttlD ds k now = (-2, notifyObserversD k { ds with store := adel ds.store k })) ∧
      (it.expiresAt ≠ 0 → 0 ≤ it.expiresAt - now →
        ttlD ds k now = (it.expiresAt - now, ds))) := by
  constructor
  · intro h
    simp [ttlD, h]
  · intro it h
    refine ⟨?_, ?_, ?_⟩
    · intro h0
      simp [ttlD, h, h0]
    · intro h0 hneg
      simp [ttlD, h, h0, hneg]
    · intro h0 hpos
      rw [ttlD, h]
      simp only [h0, if_false]
      rw [if_neg (by omega)]

/-- C10 witness: a key expiring at 100 read at 40 has 60 left. -/
theorem ttl_trichotomy_witness :
    ttlD ⟨[("k", ⟨TypeString, 100, "v", [], 0, []⟩)], [], [], []⟩ "k" 40
      = (60, ⟨[("k", ⟨TypeString, 100, "v", [], 0, []⟩)], [], [], []⟩) := by
  have h := (ttl_trichotomy ⟨[("k", ⟨TypeString, 100, "v", [], 0, []⟩)], [], [], []⟩
    "k" 40).2 ⟨TypeString, 100, "v", [], 0, []⟩ (by decide)
  exact h.2.2 (by decide) (by decide)

/-- C10 counterexample: at `now` exactly equal to `expires_at` the key
is live and `TTL` returns `0`, which is neither `-2`, `-1`, nor a
positive remaining duration as the claim requires. -/
theorem ttl_zero_at_expiry_instant :
    alookup (⟨[("k", ⟨TypeString, 100, "v", [], 0, []⟩)], [], [], []⟩ : DState).store "k"
        = some ⟨TypeString, 100, "v", [], 0, []⟩ ∧
    (ttlD ⟨[("k", ⟨TypeString, 100, "v", [], 0, []⟩)], [], [], []⟩ "k" 100).1 = 0 ∧
    ¬ ((ttlD ⟨[("k", ⟨TypeString, 100, "v", [], 0, []⟩)], [], [], []⟩ "k" 100).1 = -2 ∨
       (ttlD ⟨[("k", ⟨TypeString, 100, "v", [], 0, []⟩)], [], [], []⟩ "k" 100).1 = -1 ∨
       0 < (ttlD ⟨[("k", ⟨TypeString, 100, "v", [], 0, []⟩)], [], [], []⟩ "k" 100).1) := by
  refine ⟨by decide, by decide, by decide⟩

/-! ## C5 — INCR / INCRBY / DECR / DECRBY -/

instance {e a : Type} [DecidableEq e] [DecidableEq a] : DecidableEq (Except e a) :=
  fun x y =>
    match x, y with
    | .ok v, .ok w => if h : v = w then isTrue (by rw [h]) else isFalse (by simp [h])
    | .error v, .error w => if h : v = w then isTrue (by rw [h]) else isFalse (by simp [h])
    | .ok _, .error _ => isFalse (by simp)
    | .error _, .ok _ => isFalse (by simp)

/-- C5 (amended): `IncrBy` parses the current value as a signed 64-bit
integer (an absent key counts as 0), adds the delta with Go's WRAPPING
`int64` addition, stores the decimal representation and returns the new
value; when the stored value does not parse as a signed 64-bit integer
(including out-of-range decimal strings) or the key holds a non-string,
it fails with `NOT_INTEGER` before any store write, leaving the value
unchanged — but an overflow of the addition itself does NOT fail: the
result wraps modulo `2^64` (two's complement) and is stored.  `Incr`,
`Decr` and `DecrBy` delegate to `IncrBy`. -/
theorem incrby_behavior (ds : DState) (k : String) (amount : Int) (now : Int) :
    (alookup ds.store k = none →
      IncrByD ds k amount now =
        .ok (notifyObserversD k { ds with store := aset ds.store k ⟨TypeString, 0, toString (wrap64 (0 + amount)), [], 0, []⟩ },
          wrap64 (0 + amount))) ∧
    (∀ it, alookup ds.store k = some it → it.expired now = false →
      (it.typ ≠ TypeString → IncrByD ds k amount now = .error .notInteger) ∧
      (it.typ = TypeString → parseInt64Go it.str = none →
        IncrByD ds k amount now = .error .notInteger) ∧
      (∀ c, it.typ = TypeString → parseInt64Go it.str = some c →
        IncrByD ds k amount now =
          .ok (notifyObserversD k { ds with store := aset ds.store k ⟨TypeString, it.expiresAt, toString (wrap64 (c + amount)), [], 0, []⟩ },
            wrap64 (c + amount)))) := by
  constructor
  · intro h
    simp [IncrByD, h]
  · intro it h hx
    refine ⟨?_, ?_, ?_⟩
    · intro ht
      simp [IncrByD, h, hx, ht]
    · intro ht hp
      simp [IncrByD, h, hx, ht, hp]
    · intro c ht hp
      simp [IncrByD, h, hx, ht, hp]

/-- C5 witness: incrementing a live `"41"` yields 42, stored as
`"42"`. -/
theorem incrby_behavior_witness :
    IncrByD ⟨[("k", ⟨TypeString, 0, "41", [], 0, []⟩)], [], [], []⟩ "k" 1 7
      = .ok (⟨[("k", ⟨TypeString, 0, "42", [], 0, []⟩)], [], [], []⟩, 42) := by
  have h := ((incrby_behavior ⟨[("k", ⟨TypeString, 0, "41", [], 0, []⟩)], [], [], []⟩
    "k" 1 7).2 ⟨TypeString, 0, "41", [], 0, []⟩ (by decide) (by decide)).2.2
    41 (by decide) (by decide)
  rw [h]
  decide

/-- C5 counterexample: incrementing the maximal `int64` value succeeds
and stores the wrapped `-9223372036854775808` instead of failing with
`NOT_INTEGER` and leaving the value unchanged. -/
theorem incrby_overflow_wraps :
    IncrByD ⟨[("k", ⟨TypeString, 0, "9223372036854775807", [], 0, []⟩)], [], [], []⟩ "k" 1 0
      = .ok (⟨[("k", ⟨TypeString, 0, "-9223372036854775808", [], 0, []⟩)], [], [], []⟩,
        -9223372036854775808) := by
  decide

/-! ## C2 — EXEC -/

/-- C2 (amended): for a connection in a transaction, EXEC with the dirty
flag set clears the transaction state (queue, watching, dirty, in_tx)
and replies with `WriteNull`'s NULL BULK STRING `$-1\r\n` (not the null
array `*-1\r\n`); otherwise it clears the state and writes a `*|queue|`
array header followed by the queued commands' responses concatenated in
queue order (identically in the parallel mode, which copies per-command
buffers in original queue order). -/
theorem exec_cmd_behavior (run : List String → String) (st : TxSt)
    (h : st.inTx = true) :
    (st.dirty = true → execExecCmd run st = (clearedTx, writeNull)) ∧
    (st.dirty = false →
      execExecCmd run st =
        (clearedTx, writeArrayHeader st.txQueue.length ++ String.join (st.txQueue.map run))) := by
  constructor
  · intro hd
    simp [execExecCmd, h, hd]
  · intro hd
    simp [execExecCmd, h, hd]

/-- C2 witness: a clean one-command queue replies `*1\r\n` followed by
the queued command's response, and a dirty EXEC replies `$-1\r\n`. -/
theorem exec_cmd_behavior_witness :
    execExecCmd (fun _ => "+OK\r\n") ⟨true, false, [], [["SET", "k", "v"]]⟩
      = (clearedTx, "*1\r\n+OK\r\n") ∧
    execExecCmd (fun _ => "+OK\r\n") ⟨true, true, ["k"], [["SET", "k", "v"]]⟩
      = (clearedTx, "$-1\r\n") := by
  constructor
  · have h := (exec_cmd_behavior (fun _ => "+OK\r\n")
      ⟨true, false, [], [["SET", "k", "v"]]⟩ rfl).2 rfl
    rw [h]
    decide
  · exact (exec_cmd_behavior (fun _ => "+OK\r\n")
      ⟨true, true, ["k"], [["SET", "k", "v"]]⟩ rfl).1 rfl

/-- C2 counterexample: the aborted-EXEC reply byte sequence is the null
bulk string `$-1\r\n`, not the null array `*-1\r\n` the claim states. -/
theorem exec_dirty_null_bulk_not_null_array :
    (execExecCmd (fun _ => "") ⟨true, true, ["k"], [["SET", "k", "v"]]⟩).2 = "$-1\r\n" ∧
    (execExecCmd (fun _ => "") ⟨true, true, ["k"], [["SET", "k", "v"]]⟩).2 ≠ "*-1\r\n" := by
  constructor
  · decide
  · decide

/-! ## C4 — empty containers are removed -/

/-- C4: `LREM` that empties a list leaves the empty item in the shard:
removing the only element returns 1 and stores an empty list under the
key, and `Exists` still reports the key as present — the claim (and the
source's own trailing comment "We should do the same here.") requires
the key to be deleted like `LPop` does. -/
theorem lrem_leaves_empty_key :
    LRemD ⟨[("k", ⟨TypeList, 0, "", ["a"], 1, []⟩)], [], [], []⟩ "k" 0 "a" 0
      = .ok (⟨[("k", ⟨TypeList, 0, "", [], 0, []⟩)], [], [], []⟩, 1) ∧
    (existsD ⟨[("k", ⟨TypeList, 0, "", [], 0, []⟩)], [], [], []⟩ "k" 0).2 = true ∧
    (LPopD ⟨[("k", ⟨TypeList, 0, "", ["a"], 1, []⟩)], [], [], []⟩ "k" 0
      = .ok (⟨[], [], [], []⟩, some "a")) := by
  refine ⟨by decide, by decide, by decide⟩

/-! ## C3 — one-shot invalidation -/

/-- Helper: a key looked up after `adel` of that key is gone. -/
theorem alookup_adel_self {α : Type} (m : List (String × α)) (k : String) :
    alookup (adel m k) k = none := by
  induction m with
  | nil => simp [adel, alookup]
  | cons hd tl ih =>
      by_cases h : hd.1 = k
      · simpa [adel, alookup, h] using ih
      · simpa [adel, alookup, h] using ih

/-- Helper: `lookupCK` commutes with an entry-wise rewrite of the key
sets that keeps the observer ids. -/
theorem lookupCK_map_entry (h : Nat → List String → List String)
    (l : List (Nat × List String)) (o : Nat) :
    lookupCK (l.map (fun e => (e.1, h e.1 e.2))) o = (lookupCK l o).map (h o) := by
  induction l with
  | nil => simp [lookupCK]
  | cons hd tl ih =>
      by_cases he : hd.1 = o
      · subst he
        simp [lookupCK]
      · simp [lookupCK, he, ih]

/-- Helper: after `NotifyObservers`' `clientKeys` cleanup, no observer
that was tracked on `k` still lists `k`. -/
theorem lookupCK_cleanup (l : List (Nat × List String)) (obs : List Nat) (k : String)
    (o : Nat) (ho : o ∈ obs) (ks : List String)
    (h : lookupCK (l.map (fun e => if e.1 ∈ obs then (e.1, e.2.filter (fun key => key ≠ k)) else e)) o
      = some ks) : k ∉ ks := by
  have hfun : (fun e : Nat × List String =>
      if e.1 ∈ obs then (e.1, e.2.filter (fun key => key ≠ k)) else e)
      = (fun e : Nat × List String =>
        (e.1, if e.1 ∈ obs then e.2.filter (fun key => key ≠ k) else e.2)) := by
    funext e
    by_cases hin : e.1 ∈ obs
    · simp [hin]
    · simp [hin]
  rw [hfun, lookupCK_map_entry (fun a ks0 => if a ∈ obs then ks0.filter (fun key => key ≠ k) else ks0)] at h
  cases hck : lookupCK l o with
  | none => rw [hck] at h; simp at h
  | some ks0 =>
      rw [hck] at h
      simp only [Option.map_some, if_pos ho] at h
      obtain rfl : ks0.filter (fun key => key ≠ k) = ks := Option.some.inj h
      intro hk
      have := (List.mem_filter.mp hk).2
      simp at this

/-- C3 (amended): `NotifyObservers(k)` itself is one-shot — every
observer tracked on `k` receives `invalidate(k)` exactly once, the
`invalidationTable` entry for `k` is removed and `k` disappears from
each notified observer's `clientKeys` — but not every mutating
operation invokes it: in-place container mutations such as `LPUSH` on
an existing list key notify no one (see the counterexample). -/
theorem notify_observers_one_shot (ds : DState) (k : String) (obs : List Nat)
    (h : alookup ds.invTable k = some obs) (hnd : obs.Nodup) :
    (notifyObserversD k ds).sent = ds.sent ++ obs.map (fun o => (o, k)) ∧
    alookup (notifyObserversD k ds).invTable k = none ∧
    (obs.map (fun o => (o, k))).Nodup ∧
    (∀ o ∈ obs, ∀ ks, lookupCK (notifyObserversD k ds).clientKeys o = some ks → k ∉ ks) := by
  refine ⟨?_, ?_, ?_, ?_⟩
  · simp [notifyObserversD, h]
  · simp [notifyObserversD, h, alookup_adel_self]
  · have hinj : Function.Injective (fun o : Nat => (o, k)) := by
      intro a b hab
      simpa using congrArg Prod.fst hab
    exact hnd.map hinj
  · intro o ho ks hks
    simp only [notifyObserversD, h] at hks
    exact lookupCK_cleanup ds.clientKeys obs k o ho ks hks

/-- C3 witness: a single observer tracked on `k` is invalidated exactly
once and untracked by `NotifyObservers`. -/
theorem notify_observers_one_shot_witness :
    (notifyObserversD "k" ⟨[], [("k", [7])], [(7, ["k"])], []⟩).sent = [(7, "k")] ∧
    alookup (notifyObserversD "k" ⟨[], [("k", [7])], [(7, ["k"])], []⟩).invTable "k" = none := by
  have h := notify_observers_one_shot ⟨[], [("k", [7])], [(7, ["k"])], []⟩ "k" [7]
    (by decide) (by decide)
  exact ⟨h.1, h.2.1⟩

/-- C3 counterexample: `LPUSH` onto an EXISTING list key mutates the key
but sends no invalidation and leaves observer 7 tracked on `"k"`,
contradicting the claim that any mutating operation invalidates and
untracks every observer of the key. -/
theorem lpush_existing_key_not_notified :
    LPushD ⟨[("k", ⟨TypeList, 0, "", ["a"], 1, []⟩)], [("k", [7])], [(7, ["k"])], []⟩
        "k" ["b"] 0
      = .ok (⟨[("k", ⟨TypeList, 0, "", ["b", "a"], 2, []⟩)], [("k", [7])], [(7, ["k"])], []⟩, 2) ∧
    (⟨[("k", ⟨TypeList, 0, "", ["b", "a"], 2, []⟩)], [("k", [7])], [(7, ["k"])], []⟩ : DState).sent
        = [] ∧
    alookup (⟨[("k", ⟨TypeList, 0, "", ["b", "a"], 2, []⟩)], [("k", [7])], [(7, ["k"])], []⟩
        : DState).invTable "k" = some [7] := by
  refine ⟨by decide, by decide, by decide⟩

/-! ## C7 — waiter hand-off and BLPOP consumption -/

/-- Helper: with every queued waiter's one-shot channel still empty (the
only state a registered, not-yet-served waiter can be in), the push-side
service loop hands the first `min |waiters| |values|` values to the
first that many waiters, one value per dequeued waiter in order, and
leaves exactly the remaining values for the list buffer. -/
theorem serveWaiters_all_none (ws : List (Option String)) (vs : List String)
    (hw : ∀ w ∈ ws, w = none) :
    serveWaiters ws vs =
      (ws.drop (min ws.length vs.length), vs.drop (min ws.length vs.length),
       (vs.take (min ws.length vs.length)).map some) := by
  induction ws generalizing vs with
  | nil => simp [serveWaiters]
  | cons w ws ih =>
      cases vs with
      | nil => simp [serveWaiters]
      | cons v vs =>
          have hwn : w = none := hw w (by simp)
          have htl : ∀ x ∈ ws, x = none := fun x hx => hw x (by simp [hx])
          subst hwn
          simp [serveWaiters, ih vs htl, Nat.succ_min_succ]

/-- Helper: `blockPop` registers only empty mailboxes, so the
all-mailboxes-empty hypothesis of the hand-off theorem holds in every
state reachable by registrations (and is preserved by pushes, which only
drop a prefix of the queue). -/
theorem blockPopRegister_all_none (i : ItemC) (hw : ∀ w ∈ i.waiters, w = none) :
    ∀ w ∈ i.blockPopRegister.waiters, w = none := by
  intro w hmem
  rcases List.mem_append.mp hmem with hx | hx
  · exact hw w hx
  · exact List.mem_singleton.mp hx

/-- C7: a push serving waiters bypasses the list buffer — with all
registered mailboxes empty, `rpush` delivers the first
`min |waiters| |values|` values each into exactly one dequeued waiter's
one-shot channel (in order), and only the remaining values are appended
to the buffer, so a handed-off value never appears in the list; and a
pop that returns a value has removed exactly that value from the head of
the buffer, so a `BLPOP` answered either way consumes its value exactly
once. -/
theorem push_handoff_consumed (i : ItemC) (vs : List String) (v : String) (j : ItemC)
    (hw : ∀ w ∈ i.waiters, w = none) :
    ((i.rpush vs).2 = (vs.take (min i.waiters.length vs.length)).map some ∧
     (i.rpush vs).1.lst = i.lst ++ vs.drop (min i.waiters.length vs.length) ∧
     (i.rpush vs).1.waiters = i.waiters.drop (min i.waiters.length vs.length)) ∧
    (i.pop true = (some v, j) → i.lst = v :: j.lst ∧ j.listSize = i.listSize - 1) := by
  constructor
  · rw [ItemC.rpush, serveWaiters_all_none i.waiters vs hw]
    exact ⟨rfl, rfl, rfl⟩
  · intro hp
    rw [ItemC.pop] at hp
    by_cases hz : i.listSize = 0
    · rw [if_pos hz] at hp
      cases hp
    · rw [if_neg hz, if_pos rfl] at hp
      cases hl : i.lst with
      | nil =>
          rw [hl] at hp
          simp at hp
      | cons v0 rest =>
          rw [hl] at hp
          have h1 : v0 = v := by
            have := congrArg Prod.fst hp
            simpa using this
          have h2 : j = { i with lst := rest, listSize := i.listSize - 1 } := by
            have := congrArg Prod.snd hp
            simpa using this.symm
          subst h1
          simp [h2, hl]

/-- C7 witness: pushing three values onto a list with two empty-mailbox
waiters hands `x` and `y` to the two waiters and buffers only `z`; a pop
from `["a", "b"]` returns `a` leaving `["b"]`. -/
theorem push_handoff_consumed_witness :
    (((⟨TypeList, 0, "", [], 0, [none, none]⟩ : ItemC).rpush ["x", "y", "z"]).2
        = [some "x", some "y"] ∧
     ((⟨TypeList, 0, "", [], 0, [none, none]⟩ : ItemC).rpush ["x", "y", "z"]).1.lst = ["z"] ∧
     ((⟨TypeList, 0, "", [], 0, [none, none]⟩ : ItemC).rpush ["x", "y", "z"]).1.waiters = []) ∧
    ((⟨TypeList, 0, "", ["a", "b"], 2, []⟩ : ItemC).lst
        = "a" :: (⟨TypeList, 0, "", ["b"], 1, []⟩ : ItemC).lst ∧
     (⟨TypeList, 0, "", ["b"], 1, []⟩ : ItemC).listSize
        = (⟨TypeList, 0, "", ["a", "b"], 2, []⟩ : ItemC).listSize - 1) := by
  constructor
  · exact (push_handoff_consumed ⟨TypeList, 0, "", [], 0, [none, none]⟩ ["x", "y", "z"]
      "a" ⟨TypeList, 0, "", ["b"], 1, []⟩ (by decide)).1
  · exact (push_handoff_consumed ⟨TypeList, 0, "", ["a", "b"], 2, []⟩ ["x"]
      "a" ⟨TypeList, 0, "", ["b"], 1, []⟩ (by decide)).2 (by decide)

/-! ## C8 — LPUSH order -/

/-- Helper: pushing each value at the head in the order given reverses
the batch in front of the old buffer. -/
theorem foldl_cons_reverse (vs acc : List String) :
    vs.foldl (fun a v => v :: a) acc = vs.reverse ++ acc := by
  induction vs generalizing acc with
  | nil => simp
  | cons v rest ih => simp [List.foldl, ih, List.append_assoc]

/-- Helper: `LRANGE k 0 -1` on a live, size-consistent, non-empty list
item returns the whole buffer head→tail. -/
theorem lrange_full (ds : DState) (k : String) (it : ItemC) (now : Int)
    (h : alookup ds.store k = some it) (hx : it.expired now = false)
    (ht : it.typ = TypeList) (hs : it.listSize = (it.lst.length : Int))
    (hpos : it.lst ≠ []) :
    LRangeD ds k 0 (-1) now = .ok (ds, it.lst) := by
  have hlen : 1 ≤ (it.lst.length : Int) := by
    have := List.length_pos.mpr hpos
    omega
  have hget : getListItemD ds k now = .ok (ds, some it) := by
    simp [getListItemD, h, hx, ht]
  rw [LRangeD, hget]
  simp only [hs]
  rw [if_neg (show ¬((it.lst.length : Int) = 0) by omega)]
  rw [if_pos (show (-1 : Int) < 0 by omega)]
  rw [if_neg (show ¬((0 : Int) < 0) by omega)]
  rw [if_neg (show ¬((it.lst.length : Int) ≤ (it.lst.length : Int) + -1) by omega)]
  rw [if_neg (show ¬((it.lst.length : Int) + -1 < 0) by omega)]
  have harith : ((it.lst.length : Int) + -1 - 0 + 1).toNat = it.lst.length := by omega
  rw [harith]
  norm_num

/-- C8: `LPUSH k a b c` on an absent key pushes head-first in the order
given, so `LRANGE k 0 -1` returns the reversal `[c, b, a]` of the pushed
batch, and the push reports the new size `|values|`. -/
theorem lpush_lrange (ds : DState) (k : String) (values : List String) (now : Int)
    (habs : alookup ds.store k = none) (hne : values ≠ []) :
    ∃ ds1, LPushD ds k values now = .ok (ds1, (values.length : Int)) ∧
      LRangeD ds1 k 0 (-1) now = .ok (ds1, values.reverse) := by
  have hserve : serveWaiters [] values = ([], values, []) := rfl
  have hpair : newListItem.lpush values =
      ((⟨TypeList, 0, "", values.reverse, (values.length : Int), []⟩ : ItemC),
        ([] : List (Option String))) := by
    rw [ItemC.lpush]
    show (let (ws', vs', ds') := serveWaiters [] values; _) = _
    rw [hserve]
    simp [newListItem, foldl_cons_reverse]
  have hlp : LPushD ds k values now =
      .ok ({ (notifyObserversD k { ds with store := aset ds.store k newListItem }) with store := aset (notifyObserversD k { ds with store := aset ds.store k newListItem }).store k (⟨TypeList, 0, "", values.reverse, (values.length : Int), []⟩ : ItemC) },
        (values.length : Int)) := by
    rw [LPushD]
    have hoc : getOrCreateListItemD ds k now =
        .ok (notifyObserversD k { ds with store := aset ds.store k newListItem },
          newListItem) := by
      rw [getOrCreateListItemD, habs]
    rw [hoc]
    show (let (it', _) := newListItem.lpush values; _) = _
    rw [hpair]
    simp [newListItem, foldl_cons_reverse]
  refine ⟨_, hlp, ?_⟩
  apply lrange_full _ _ (⟨TypeList, 0, "", values.reverse, (values.length : Int), []⟩ : ItemC) now
  · exact alookup_aset_self _ k _
  · rfl
  · rfl
  · simp
  · simpa using hne

/-- C8 witness: the claim's literal example — `LPUSH k a b c` on an
empty key, then `LRANGE k 0 -1` yields `[c, b, a]`. -/
theorem lpush_lrange_witness :
    ∃ ds1, LPushD ⟨[], [], [], []⟩ "k" ["a", "b", "c"] 0 = .ok (ds1, 3) ∧
      LRangeD ds1 "k" 0 (-1) 0 = .ok (ds1, ["c", "b", "a"]) := by
  exact lpush_lrange ⟨[], [], [], []⟩ "k" ["a", "b", "c"] 0 (by decide) (by decide)

/-! ## C9 — ZADD / ZSCORE / ZRANK / ZREVRANK / ZCARD -/

/-- Helper: after `ZAdd`'s locked body, the dictionary maps the member
to the given score (on the no-op branch the old score is Go-`==` to the
new one, hence the same model value). -/
theorem zaddCore_dict (t : Nat) (s : GoFloat) (m : String) (z : ZSetM) :
    alookup (zaddCore t s m z).1.dict m = some s := by
  cases h : alookup z.dict m with
  | none => simp [zaddCore, h, alookup_aset_self]
  | some old =>
      by_cases hf : GoFloat.feq old s = true
      · have : old = s := GoFloat.eq_of_feq hf
        subst this
        simp [zaddCore, h, hf]
      · simp [zaddCore, h, hf, alookup_aset_self]

/-- Helper: reading the sorted-set commands back on a store whose key
holds a live `ZSet` whose dictionary contains the member. -/
theorem zcmds_after (st1 : StoreV) (k m : String) (z' : ZSetM) (e' : Int) (now : Int)
    (s : GoFloat) (hl : alookup st1 k = some ⟨.zset z', e'⟩)
    (hx : (⟨.zset z', e'⟩ : ItemV).expired now = false)
    (hd : alookup z'.dict m = some s) :
    ZScoreS st1 k m now = .ok (st1, (s, true)) ∧
    ZRankS st1 k m now = .ok (st1, z'.zsl.getRank s m - 1) ∧
    ZRevRankS st1 k m now = .ok (st1, z'.zsl.length - z'.zsl.getRank s m) ∧
    ZCardS st1 k now = .ok (st1, z'.zsl.length) := by
  refine ⟨?_, ?_, ?_, ?_⟩ <;> simp [ZScoreS, ZRankS, ZRevRankS, ZCardS, hl, hx, hd]

/-- C9: after a successful `ZADD k s m`, `ZSCORE k m` returns `s`, and
`ZRANK k m + ZREVRANK k m = ZCARD k - 1` (`getRank` is evaluated once
per command on the same structure, so the spans cancel in the sum). -/
theorem zadd_score_rank (st : StoreV) (k : String) (s : GoFloat) (m : String)
    (t : Nat) (now : Int) (st1 : StoreV) (added : Nat)
    (h : ZAddS st k s m t now = .ok (st1, added)) :
    ZScoreS st1 k m now = .ok (st1, (s, true)) ∧
    (∃ r rr card, ZRankS st1 k m now = .ok (st1, r) ∧
      ZRevRankS st1 k m now = .ok (st1, rr) ∧
      ZCardS st1 k now = .ok (st1, card) ∧ r + rr = card - 1) := by
  have key : ∃ z' e', st1 = aset st k ⟨.zset z', e'⟩ ∧
      (⟨.zset z', e'⟩ : ItemV).expired now = false ∧ alookup z'.dict m = some s := by
    cases hs : alookup st k with
    | none =>
        refine ⟨(zaddCore t s m NewZSetM).1, 0, ?_, by simp [ItemV.expired], zaddCore_dict t s m NewZSetM⟩
        have := h
        simp only [ZAddS, hs] at this
        exact (Prod.mk.injEq _ _ _ _ ▸ (Except.ok.inj this)).1.symm
    | some it =>
        by_cases hx : it.expired now = true
        · refine ⟨(zaddCore t s m NewZSetM).1, 0, ?_, by simp [ItemV.expired], zaddCore_dict t s m NewZSetM⟩
          have := h
          simp only [ZAddS, hs, hx, if_true] at this
          exact (Prod.mk.injEq _ _ _ _ ▸ (Except.ok.inj this)).1.symm
        · cases hv : it.value with
          | zset z =>
              refine ⟨(zaddCore t s m z).1, it.expiresAt, ?_, ?_, zaddCore_dict t s m z⟩
              · have := h
                simp only [ZAddS, hs, hx, if_false, hv] at this
                exact (Prod.mk.injEq _ _ _ _ ▸ (Except.ok.inj this)).1.symm
              · simpa [ItemV.expired] using hx
          | other =>
              exfalso
              have := h
              simp only [ZAddS, hs, hx, if_false, hv] at this
              exact Except.noConfusion this
  obtain ⟨z', e', hst1, hxp, hdict⟩ := key
  have hl : alookup st1 k = some ⟨.zset z', e'⟩ := by
    rw [hst1]
    exact alookup_aset_self _ k _
  obtain ⟨h1, h2, h3, h4⟩ := zcmds_after st1 k m z' e' now s hl hxp hdict
  refine ⟨h1, z'.zsl.getRank s m - 1, z'.zsl.length - z'.zsl.getRank s m, z'.zsl.length,
    h2, h3, h4, by ring⟩

/-- C9 witness: on the store produced by `ZADD z 5 m`, `ZSCORE z m`
returns 5. -/
theorem zadd_score_rank_witness :
    ZScoreS zaddWitnessStore "z" "m" 0 = .ok (zaddWitnessStore, (GoFloat.fin 5, true)) := by
  exact (zadd_score_rank [] "z" (GoFloat.fin 5) "m" 0 0 zaddWitnessStore 1 (by rfl)).1

/-! ## C1 — sorted-set dictionary / skip-list consistency -/

/-- C1: `NaN` scores break the dictionary/skip-list consistency.  After
`ZADD k nan m; ZADD k 1 m2; ZREM k m` the dictionary holds only `m2`,
but the skip list still holds BOTH nodes: `zskiplist.delete` compares
scores with Go `==`, and `NaN == NaN` is false, so the `(nan, m)` node
is never found and never unlinked, while the dictionary entry is
deleted.  The stored `length` (2) and the level-0 scan agree with each
other and disagree with the dictionary size (1), and `ZREM` still
reported one removal. -/
theorem zset_nan_breaks_consistency :
    zsetNanStep3.dict = [("m2", GoFloat.fin 1)] ∧
    zsetNanStep3.zsl.length = 2 ∧
    zslToList zsetNanStep3.zsl = [(GoFloat.fin 1, "m2"), (GoFloat.nan, "m")] ∧
    (zremCoreOne "m" zsetNanStep2).2 = 1 ∧
    (zsetNanStep3.dict.length : Int) ≠ zsetNanStep3.zsl.length := by
  refine ⟨by decide, by decide, by decide, by decide, by decide⟩

/-! ## C6 — stream ID generation and monotonicity -/

theorem pcmp_self (x : Nat × Nat) : pcmp x x = 0 := by
  simp [pcmp]

theorem pcmp_neg_iff (x y : Nat × Nat) :
    pcmp x y = -1 ↔ (x.1 < y.1 ∨ (x.1 = y.1 ∧ x.2 < y.2)) := by
  rw [pcmp]
  split_ifs <;> simp_all <;> omega

theorem pcmp_one_iff (x y : Nat × Nat) :
    pcmp x y = 1 ↔ (y.1 < x.1 ∨ (x.1 = y.1 ∧ y.2 < x.2)) := by
  rw [pcmp]
  split_ifs <;> simp_all <;> omega

theorem pcmp_le_zero_iff (x y : Nat × Nat) :
    pcmp x y ≤ 0 ↔ (x.1 < y.1 ∨ (x.1 = y.1 ∧ x.2 ≤ y.2)) := by
  rw [pcmp]
  split_ifs <;> simp_all <;> omega

theorem pcmp_cases (x y : Nat × Nat) : pcmp x y = -1 ∨ pcmp x y = 0 ∨ pcmp x y = 1 := by
  rw [pcmp]
  split_ifs <;> omega

/-- Helper: anything at most `b` is strictly below anything strictly
above `b`. -/
theorem cmp_lt_of_le_of_gt (a b c : String) (h1 : compareIDs a b ≤ 0)
    (h2 : compareIDs c b = 1) : compareIDs a c = -1 := by
  rw [compareIDs] at h1 h2 ⊢
  rw [pcmp_le_zero_iff] at h1
  rw [pcmp_one_iff] at h2
  rw [pcmp_neg_iff]
  omega

/-- Helper: `"0-0"` denotes the minimum pair, so nothing compares
strictly below it — in particular no ID accepted against a non-initial
`lastID` can be the string `"0-0"`. -/
theorem cmp_zerozero_le (b : String) : compareIDs "0-0" b ≤ 0 := by
  rw [compareIDs, pcmp_le_zero_iff]
  have : pairOfID "0-0" = (0, 0) := by decide
  rw [this]
  omega

/-- C6 (amended): on a stream satisfying the strict-monotonicity
invariant, a successful `XADD` preserves it and appends an entry
strictly above every other remaining entry; the auto-generated `"*"` ID
is `max(now_ms, last_ms)` paired with `last_seq + 1` (a `uint64`
increment) when the milliseconds tie and `0` otherwise; and whenever
`last_id` is not the initial literal `"0-0"`, the accepted ID compares
strictly greater than `last_id` — but on a never-appended stream
(`last_id = "0-0"`) the code only rejects the literal string `"0-0"`,
so malformed or numerically-equal IDs can be accepted there (see the
counterexample). -/
theorem xadd_monotone (s : StreamM) (nowMs : Nat) (id : String) (maxLen : Int)
    (fields : List String) (s' : StreamM) (rid : String)
    (hinv : streamInv s) (h : xaddS s nowMs id maxLen fields = .ok (s', rid)) :
    streamInv s' ∧ s'.lastID = rid ∧
    (id = "*" →
      rid = formatID (max (nowMs % 2 ^ 64) (pairOfID s.lastID).1)
        (if max (nowMs % 2 ^ 64) (pairOfID s.lastID).1 = (pairOfID s.lastID).1
          then ((pairOfID s.lastID).2 + 1) % 2 ^ 64 else 0)) ∧
    (s.lastID ≠ "0-0" → compareIDs rid s.lastID = 1) ∧
    (∀ e ∈ s'.entries, e.id = rid ∨ compareIDs e.id rid = -1) := by
  rw [xaddS] at h
  by_cases hf : fields.length % 2 ≠ 0
  · rw [if_pos hf] at h
    exact absurd h (by simp)
  · rw [if_neg hf] at h
    set newID := generateIDGo s.lastID nowMs id with hnewdef
    by_cases hc1 : s.lastID ≠ "0-0" ∧ compareIDs newID s.lastID ≤ 0
    · rw [if_pos hc1] at h
      exact absurd h (by simp)
    · rw [if_neg hc1] at h
      by_cases hc2 : s.lastID = "0-0" ∧ newID = "0-0"
      · rw [if_pos hc2] at h
        exact absurd h (by simp)
      · rw [if_neg hc2] at h
        simp only [Except.ok.injEq, Prod.mk.injEq] at h
        obtain ⟨hs', hrid⟩ := h
        have hgt : s.lastID ≠ "0-0" → compareIDs newID s.lastID = 1 := by
          intro hne
          rcases not_and_or.mp hc1 with hb | hb
          · exact absurd hne hb
          · have hceq : compareIDs newID s.lastID
                = pcmp (pairOfID newID) (pairOfID s.lastID) := rfl
            rcases pcmp_cases (pairOfID newID) (pairOfID s.lastID) with hx | hx | hx
            · exact absurd (by omega) hb
            · exact absurd (by omega) hb
            · omega
        have hne00 : newID ≠ "0-0" := by
          by_cases hl0 : s.lastID = "0-0"
          · rcases not_and_or.mp hc2 with hb | hb
            · exact absurd hl0 hb
            · exact hb
          · intro h00
            have h1 := hgt hl0
            rw [h00] at h1
            have := cmp_zerozero_le s.lastID
            omega
        have hdom : ∀ e ∈ s.entries, compareIDs e.id newID = -1 := by
          intro e he
          by_cases hl0 : s.lastID = "0-0"
          · rw [hinv.2.2 hl0] at he
            cases he
          · exact cmp_lt_of_le_of_gt e.id s.lastID newID (hinv.2.1 e he) (hgt hl0)
        have hP1 : (s.entries ++ [({ id := newID, fields := fields } : StreamEntryM)]).Pairwise
            (fun e1 e2 => compareIDs e1.id e2.id = -1) := by
          rw [List.pairwise_append]
          refine ⟨hinv.1, by simp, ?_⟩
          intro a ha b hb
          rw [List.mem_singleton.mp hb]
          exact hdom a ha
        have hsub : List.Sublist s'.entries
            (s.entries ++ [({ id := newID, fields := fields } : StreamEntryM)]) := by
          rw [← hs']
          by_cases hc : 0 < maxLen ∧
              maxLen < ((s.entries ++ [({ id := newID, fields := fields } : StreamEntryM)]).length : Int)
          · rw [if_pos hc]
            exact List.drop_sublist _ _
          · rw [if_neg hc]
        have hlast : s'.lastID = newID := by rw [← hs']
        have hmem : ∀ e ∈ s'.entries,
            e ∈ s.entries ∨ e = ({ id := newID, fields := fields } : StreamEntryM) := by
          intro e he
          have := hsub.subset he
          rcases List.mem_append.mp this with hx | hx
          · exact Or.inl hx
          · exact Or.inr (List.mem_singleton.mp hx)
        refine ⟨⟨hP1.sublist hsub, ?_, ?_⟩, ?_, ?_, ?_, ?_⟩
        · intro e he
          rw [hlast]
          rcases hmem e he with hx | hx
          · have := hdom e hx
            omega
          · rw [hx]
            simp only []
            rw [compareIDs, pcmp_self]
        · intro h00
          rw [hlast] at h00
          exact absurd h00 hne00
        · rw [hlast, hrid]
        · intro hid
          have hmax : (if nowMs % 2 ^ 64 < (pairOfID s.lastID).1
              then (pairOfID s.lastID).1 else nowMs % 2 ^ 64)
              = max (nowMs % 2 ^ 64) (pairOfID s.lastID).1 := by
            rcases Nat.lt_or_ge (nowMs % 2 ^ 64) (pairOfID s.lastID).1 with hx | hx
            · rw [if_pos hx]
              omega
            · rw [if_neg (by omega)]
              omega
          rw [← hrid, hnewdef, hid]
          rw [show generateIDGo s.lastID nowMs "*"
              = formatID (if nowMs % 2 ^ 64 < (pairOfID s.lastID).1 then (pairOfID s.lastID).1 else nowMs % 2 ^ 64) (if (if nowMs % 2 ^ 64 < (pairOfID s.lastID).1 then (pairOfID s.lastID).1 else nowMs % 2 ^ 64) = (pairOfID s.lastID).1 then ((pairOfID s.lastID).2 + 1) % 2 ^ 64 else 0) from rfl]
          rw [hmax]
        · intro hne
          rw [← hrid]
          exact hgt hne
        · intro e he
          rcases hmem e he with hx | hx
          · exact Or.inr (by rw [← hrid]; exact hdom e hx)
          · exact Or.inl (by rw [hx, ← hrid])

/-- C6 witness: `XADD s * a b` at `now_ms = 5` on a fresh stream yields
ID `5-0` and a stream satisfying the monotonicity invariant. -/
theorem xadd_monotone_witness :
    streamInv { entries := [({ id := "5-0", fields := ["a", "b"] } : StreamEntryM)], lastID := "5-0" } := by
  have h := xadd_monotone newStreamM 5 "*" 0 ["a", "b"]
    { entries := [({ id := "5-0", fields := ["a", "b"] } : StreamEntryM)], lastID := "5-0" }
    "5-0" (by simp [streamInv, newStreamM]) (by decide)
  exact h.1

/-- C6 counterexample: on a never-appended stream (`last_id = "0-0"`)
the explicit IDs `"abc"` (malformed) and `"0-00"` (numerically equal to
`0-0`) are both ACCEPTED, although neither compares strictly greater
than `last_id` under `compareIDs` — the claim requires XADD to fail for
any explicit ID not strictly greater than `last_id`. -/
theorem xadd_malformed_id_accepted :
    xaddS newStreamM 5 "abc" 0 ["f", "v"]
      = .ok ({ entries := [({ id := "abc", fields := ["f", "v"] } : StreamEntryM)], lastID := "abc" }, "abc") ∧
    compareIDs "abc" "0-0" = 0 ∧
    xaddS newStreamM 5 "0-00" 0 ["f", "v"]
      = .ok ({ entries := [({ id := "0-00", fields := ["f", "v"] } : StreamEntryM)], lastID := "0-00" }, "0-00") ∧
    compareIDs "0-00" "0-0" = 0 := by
  refine ⟨by decide, by decide, by decide, by decide⟩
